import Mathlib

/-!
Shallow embedding of the diff engine in `cmd/wasm/diff/diff_match_patch.go`
(repository dknieriem/diff_live), together with theorems settling the frozen
claims about its specification.

Modelling conventions:
* A Go string is modelled as `GoStr := List Char`, i.e. a sequence of code
  points.  Every concrete input used in a theorem below is ASCII, so the
  places where the Go code indexes raw bytes (e.g. `DiffCharsToLines`,
  `DiffCommonOverlap`) coincide with code-point indexing at those inputs.
* A Go slice expression `s[lo:hi]` panics when `lo > hi` or `hi > len(s)`;
  panicking operations are modelled with `Option` (`none` = runtime panic).
* Go `error` results are modelled as `Option GoErr` (`none` = nil error).
* Loops whose termination is not structurally evident are given an explicit
  `fuel` argument; exhausting the fuel is modelled by a sentinel outcome that
  is never reached at the fuel values used in the theorems.
-/

/-- Characters written by code point to stay clear of quote-escaping. -/
def dquoteChar : Char := Char.ofNat 34

/-- The apostrophe character, written by code point. -/
def squoteChar : Char := Char.ofNat 39

/-- Go strings are sequences of code points (runes). -/
abbrev GoStr := List Char

/-- Go `error` values, keeping only the message. -/
abbrev GoErr := String

/-- Operation: the three diff operations, from the repository's enum
(DELETE, INSERT, EQUAL). -/
inductive Operation where
  | DELETE : Operation
  | INSERT : Operation
  | EQUAL : Operation
deriving DecidableEq, Repr

export Operation (DELETE INSERT EQUAL)

/-- A single diff segment: `type Diff struct { Type Operation; Text string }`.
The field `Type` is renamed `Op` because `Type` is reserved in Lean. -/
structure Diff where
  Op : Operation
  Text : GoStr
deriving DecidableEq, Repr

/-- Placeholder segment used only as the default of `List.getD`; every
indexing site below is in range when reached, so it is never read. -/
def dummyDiff : Diff := ⟨EQUAL, []⟩

/-- Go `s[lo:]`: panics (`none`) when `lo > len(s)`. -/
def goSliceFrom {α : Type} (s : List α) (lo : Nat) : Option (List α) :=
  if lo ≤ s.length then some (s.drop lo) else none

/-- Go `s[:hi]`: panics (`none`) when `hi > len(s)`. -/
def goSliceTo {α : Type} (s : List α) (hi : Nat) : Option (List α) :=
  if hi ≤ s.length then some (s.take hi) else none

/-- Go `s[lo:hi]`: panics (`none`) when `lo > hi` or `hi > len(s)`. -/
def goSliceBetween {α : Type} (s : List α) (lo hi : Nat) : Option (List α) :=
  if lo ≤ hi ∧ hi ≤ s.length then some ((s.take hi).drop lo) else none

/-- Helper for `strings.Index`: scan positions left to right. -/
def strIndexAux (pat : GoStr) : GoStr → Nat → Option Nat
  | [], i => if pat.isPrefixOf [] then some i else none
  | c :: rest, i =>
    if pat.isPrefixOf (c :: rest) then some i else strIndexAux pat rest (i + 1)

/-- Go `strings.Index(s, pat)`: first occurrence of `pat` in `s`
(`none` = Go result `-1`).  `strings.Index(s, "") = 0`. -/
def strIndex (s pat : GoStr) : Option Nat := strIndexAux pat s 0

/-- DiffCommonPrefix (source lines 529-538): index of the first mismatch,
or `min` of the lengths when one text is a prefix of the other. -/
def DiffCommonPrefix : GoStr → GoStr → Nat
  | a :: as, b :: bs => if a = b then DiffCommonPrefix as bs + 1 else 0
  | _, _ => 0

/-- Loop of DiffCommonSuffix (source lines 547-551): compare positions
`len-i` for `i = 1, 2, ...` while `i < n`, returning `i-1` at the first
mismatch and `n` when the loop runs out.  (Note the loop starts at `i = 1`
and stops strictly below `n`, exactly as in the source.)  The `getD`
default is never read: `1 ≤ i ≤ n-1` keeps both indices in range. -/
def suffixLoop (textA textB : GoStr) (n : Nat) : Nat → Nat → Nat
  | 0, _ => n
  | steps + 1, i =>
    if i < n then
      if textA.getD (textA.length - i) ' ' ≠ textB.getD (textB.length - i) ' ' then i - 1
      else suffixLoop textA textB n steps (i + 1)
    else n

/-- DiffCommonSuffix (source lines 541-553).  The loop body runs at most
`n - 1` times (`i` counts up from 1 while `i < n`), so the step counter `n`
never runs out; both exits return `n`, exactly as the source does when the
loop finishes. -/
def DiffCommonSuffix (textA textB : GoStr) : Nat :=
  let n := min textA.length textB.length
  suffixLoop textA textB n n 1

/-- Specification-side definition, following spec §4.1 word for word:
"greatest n such that the last n code-points of A and B are identical",
computed as the common prefix length of the reversals. -/
def commonSuffixSpec (textA textB : GoStr) : Nat :=
  DiffCommonPrefix textA.reverse textB.reverse

/-- Loop of DiffCommonOverlap (source lines 585-598).  `fuel` bounds the
iteration count; `length` grows by at least one per iteration, so any fuel
above the truncated length is enough.  Running out of fuel returns `best`
(never reached at the fuel used below). -/
def overlapLoop (fuel : Nat) (ta tb : GoStr) (best length : Nat) : Nat :=
  match fuel with
  | 0 => best
  | fuel + 1 =>
    let pat := ta.drop (ta.length - length)
    match strIndex tb pat with
    | none => best
    | some found =>
      let length := length + found
      if found = 0 ∨ ta.drop (ta.length - length) = tb.take length then
        overlapLoop fuel ta tb length (length + 1)
      else
        overlapLoop fuel ta tb best length

/-- DiffCommonOverlap (source lines 560-599).  The Go code measures bytes;
on the ASCII inputs used below bytes and code points coincide. -/
def DiffCommonOverlap (textA textB : GoStr) : Nat :=
  if textA.length = 0 ∨ textB.length = 0 then 0
  else
    let ta := if textA.length > textB.length then textA.drop (textA.length - textB.length) else textA
    let tb := if textA.length < textB.length then textB.take textA.length else textB
    if ta = tb then min textA.length textB.length
    else overlapLoop (min textA.length textB.length + 2) ta tb 0 1

/-- DiffCompute (source lines 109-177).  The source tests `len(textA) > 0`
(not `== 0`, as upstream does) and then returns `[INSERT textB]`, and
symmetrically `len(textB) > 0` returns `[DELETE textA]`; hence the code
below the two early returns only runs when both texts are empty.  There
`longtext = shorttext = ""`, `strings.Index("", "") = 0 ≠ -1`, and the
containment branch (lines 132-146) returns with `op = INSERT` (the length
comparison at line 137 is false).  The `none` arm of the match is therefore
unreachable; it stands in for the dead single-character / half-match /
line-mode / bisect code of lines 148-176. -/
def DiffCompute (textA textB : GoStr) : List Diff :=
  if textA.length > 0 then [⟨INSERT, textB⟩]
  else if textB.length > 0 then [⟨DELETE, textA⟩]
  else
    let longtext := if textA.length > textB.length then textA else textB
    let shorttext := if textA.length > textB.length then textB else textA
    match strIndex longtext shorttext with
    | some foundTextIndex =>
      let op := if textA.length > textB.length then DELETE else INSERT
      [⟨op, longtext.take foundTextIndex⟩, ⟨EQUAL, shorttext⟩,
       ⟨op, longtext.drop (foundTextIndex + shorttext.length)⟩]
    | none => [⟨DELETE, textA⟩, ⟨INSERT, textB⟩]

/-- Pass 1 of DiffCleanupMerge (source lines 1049-1127), as a recursion over
the loop state: current list, pointer, the counts `count_delete` and
`count_insert`, and the accumulated texts `text_delete` and `text_insert`.
A `(some msg, [])` result is the Go `return errors.New(...), nil` at
line 1078.  Every `getD` index is in range when evaluated (the pointer never
exceeds the list length while a current element exists), so the defaults are
never read.  `fuel` bounds the iteration count. -/
def mergeLoop (fuel : Nat) (diffs : List Diff) (pointer cd ci : Nat)
    (td ti : GoStr) : Option GoErr × List Diff :=
  match fuel with
  | 0 => (some "merge pass 1 ran out of fuel", [])
  | fuel + 1 =>
    match diffs.getD pointer dummyDiff, decide (pointer < diffs.length) with
    | _, false => (none, diffs)
    | d, true =>
      match d.Op with
      | INSERT => mergeLoop fuel diffs (pointer + 1) cd (ci + 1) td (ti ++ d.Text)
      | DELETE => mergeLoop fuel diffs (pointer + 1) (cd + 1) ci (td ++ d.Text) ti
      | EQUAL =>
        if cd + ci > 1 then
          -- lines 1069-1095: factor common affixes when both types occurred
          let step :=
            if cd ≠ 0 ∧ ci ≠ 0 then
              let cl1 := DiffCommonPrefix ti td
              let afterPre :=
                if cl1 ≠ 0 then
                  let tempPointer := pointer - cd - ci
                  if tempPointer > 0 then
                    if (diffs.getD (tempPointer - 1) dummyDiff).Op ≠ EQUAL then
                      none
                    else
                      let prev := diffs.getD (tempPointer - 1) dummyDiff
                      some (diffs.set (tempPointer - 1) ⟨prev.Op, prev.Text ++ ti.take cl1⟩,
                            pointer, ti.drop cl1, td.drop cl1)
                  else
                    some ((⟨EQUAL, ti.take cl1⟩ : Diff) :: diffs, pointer + 1,
                          ti.drop cl1, td.drop cl1)
                else some (diffs, pointer, ti, td)
              match afterPre with
              | none => none
              | some (diffs1, pointer1, ti1, td1) =>
                let cl2 := DiffCommonSuffix ti1 td1
                if cl2 ≠ 0 then
                  let cur := diffs1.getD pointer1 dummyDiff
                  some (diffs1.set pointer1
                          ⟨cur.Op, ti1.drop (ti1.length - cl2) ++ cur.Text⟩,
                        pointer1, ti1.take (ti1.length - cl2), td1.take (td1.length - cl2))
                else some (diffs1, pointer1, ti1, td1)
            else some (diffs, pointer, ti, td)
          match step with
          | none => (some "Previous diff should have been an equality.", [])
          | some (diffs2, pointer2, ti2, td2) =>
            -- lines 1096-1104: insert the merged records
            let diffs3 :=
              if td2 = [] then
                diffs2.take (pointer2 - ci) ++ [(⟨INSERT, ti2⟩ : Diff)] ++ diffs2.drop pointer2
              else if ti2 = [] then
                diffs2.take (pointer2 - cd) ++ [(⟨DELETE, td2⟩ : Diff)] ++ diffs2.drop pointer2
              else
                diffs2.take (pointer2 - cd - ci) ++
                  [(⟨INSERT, ti2⟩ : Diff), (⟨DELETE, td2⟩ : Diff)] ++ diffs2.drop pointer2
            -- lines 1105-1112: step forward to the equality
            let pointer3 := pointer2 - cd - ci + 1 +
              (if cd ≠ 0 then 1 else 0) + (if ci ≠ 0 then 1 else 0)
            mergeLoop fuel diffs3 pointer3 0 0 [] []
        else if pointer ≠ 0 ∧ (diffs.getD (pointer - 1) dummyDiff).Op = EQUAL then
          -- lines 1114-1117: merge this equality with the previous one
          let prev := diffs.getD (pointer - 1) dummyDiff
          let diffs1 := (diffs.set (pointer - 1) ⟨prev.Op, prev.Text ++ d.Text⟩).eraseIdx pointer
          mergeLoop fuel diffs1 pointer 0 0 [] []
        else
          mergeLoop fuel diffs (pointer + 1) 0 0 [] []

/-- Pass 2 of DiffCleanupMerge (source lines 1137-1165): slide single edits
surrounded by equalities, tracking whether any change was made. -/
def mergePass2 (fuel : Nat) (diffs : List Diff) (pointer : Nat) (changes : Bool) :
    Bool × List Diff :=
  match fuel with
  | 0 => (changes, diffs)
  | fuel + 1 =>
    if pointer + 1 < diffs.length then
      let prev := diffs.getD (pointer - 1) dummyDiff
      let cur := diffs.getD pointer dummyDiff
      let next := diffs.getD (pointer + 1) dummyDiff
      if prev.Op = EQUAL ∧ next.Op = EQUAL then
        if prev.Text.isSuffixOf cur.Text then
          -- lines 1147-1155: shift the edit over the previous equality
          let diffs1 :=
            ((diffs.set pointer
                ⟨cur.Op, prev.Text ++ cur.Text.take (cur.Text.length - prev.Text.length)⟩).set
              (pointer + 1) ⟨next.Op, prev.Text ++ next.Text⟩).eraseIdx (pointer - 1)
          mergePass2 fuel diffs1 (pointer + 1) true
        else if next.Text.isPrefixOf cur.Text then
          -- lines 1156-1161: shift the edit over the next equality
          let diffs1 :=
            ((diffs.set (pointer - 1) ⟨prev.Op, prev.Text ++ next.Text⟩).set pointer
              ⟨cur.Op, cur.Text.drop next.Text.length ++ next.Text⟩).eraseIdx (pointer + 1)
          mergePass2 fuel diffs1 (pointer + 1) true
        else mergePass2 fuel diffs (pointer + 1) changes
      else mergePass2 fuel diffs (pointer + 1) changes
    else (changes, diffs)

/-- DiffCleanupMerge (source lines 1047-1171).  Returns the pair
`(error, diffs)` of the Go function.  On a pass-1 invariant violation the
Go code returns `(err, nil)`; the recursive call at line 1168 discards the
error of the nested call (`_, diffs = dmp.DiffCleanupMerge(diffs)`) and
line 1170 returns a nil error unconditionally, which the model mirrors. -/
def DiffCleanupMerge (fuel : Nat) (diffs : List Diff) : Option GoErr × List Diff :=
  match fuel with
  | 0 => (some "merge ran out of fuel", [])
  | fuel + 1 =>
    match mergeLoop (fuel + 1) (diffs ++ [(⟨EQUAL, []⟩ : Diff)]) 0 0 0 [] [] with
    | (some e, _) => (some e, [])
    | (none, diffs1) =>
      -- lines 1128-1130: remove the dummy entry when its text stayed empty
      let diffs2 :=
        match diffs1.getLast? with
        | some last => if last.Text = [] then diffs1.dropLast else diffs1
        | none => diffs1
      match mergePass2 (fuel + 1) diffs2 1 false with
      | (true, diffs3) =>
        let r := DiffCleanupMerge fuel diffs3
        (none, r.2)
      | (false, diffs3) => (none, diffs3)

/-- DiffMainDeadline (source lines 71-106) with the deadline dropped (it is
only threaded through to dead code, see `DiffCompute`).  The suffix-trim
slices at lines 89-91 index `textChoppedA` with `len(inputA)-commonLength`,
i.e. with the length of the *unchopped* input, and can therefore panic
(`none`).  Both Go return sites return a nil error (line 103 discards the
error of `DiffCleanupMerge` into `_`), which the model mirrors literally.
`fuel` is handed to the merge. -/
def DiffMainDeadline (fuel : Nat) (inputA inputB : GoStr) :
    Option (Option GoErr × List Diff) :=
  if inputA = inputB then
    some (none, if inputA.length > 0 then [(⟨EQUAL, inputA⟩ : Diff)] else [])
  else
    let preLen := DiffCommonPrefix inputA inputB
    let pre := inputA.take preLen
    let chopA := inputA.drop preLen
    let chopB := inputB.drop preLen
    let sufLen := DiffCommonSuffix chopA chopB
    match goSliceFrom chopA (inputA.length - sufLen),
          goSliceTo chopA (inputA.length - sufLen),
          goSliceTo chopB (inputB.length - sufLen) with
    | some suf, some chopA2, some chopB2 =>
      let diffs0 := DiffCompute chopA2 chopB2
      let diffs1 := if pre.length > 0 then (⟨EQUAL, pre⟩ : Diff) :: diffs0 else diffs0
      let diffs2 := if suf.length > 0 then diffs1 ++ [(⟨EQUAL, suf⟩ : Diff)] else diffs1
      let r := DiffCleanupMerge fuel diffs2
      some (none, r.2)
    | _, _, _ => none

/-- DiffTextSource (repository draft, DiffTextSource): concatenate the text
of every segment whose op is not INSERT. -/
def DiffTextSource (diffs : List Diff) : GoStr :=
  diffs.foldl (fun acc d => if d.Op ≠ INSERT then acc ++ d.Text else acc) []

/-- DiffTextResult (repository draft, DiffTextResult): concatenate the text
of every segment whose op is not DELETE. -/
def DiffTextResult (diffs : List Diff) : GoStr :=
  diffs.foldl (fun acc d => if d.Op ≠ DELETE then acc ++ d.Text else acc) []

/-- Membership in Go's regexp class `\s` = `[\t\n\f\r ]`. -/
def isGoSpace (c : Char) : Bool :=
  c = ' ' ∨ c = Char.ofNat 9 ∨ c = Char.ofNat 10 ∨ c = Char.ofNat 12 ∨ c = Char.ofNat 13

/-- Membership in the class `[^a-zA-Z0-9]` (`nonAlphaNumericRegex`). -/
def isNonAlphaNumeric (c : Char) : Bool :=
  ¬(('a' ≤ c ∧ c ≤ 'z') ∨ ('A' ≤ c ∧ c ≤ 'Z') ∨ ('0' ≤ c ∧ c ≤ '9'))

/-- Membership in the class `[\r\n]` (`linebreakRegex`). -/
def isLinebreakChar (c : Char) : Bool := c = Char.ofNat 13 ∨ c = Char.ofNat 10

/-- Match of `blanklineEndRegex` = `\n\r?\n$`: the text ends with a blank
line. -/
def matchBlanklineEnd (s : GoStr) : Bool :=
  [Char.ofNat 10, Char.ofNat 10].isSuffixOf s ∨
    [Char.ofNat 10, Char.ofNat 13, Char.ofNat 10].isSuffixOf s

/-- DiffCleanupSemanticScore (source lines 890-932).  Note the source
applies `blanklineEndRegex` to *both* arguments (lines 912-913). -/
def DiffCleanupSemanticScore (one two : GoStr) : Nat :=
  if one.length = 0 ∨ two.length = 0 then 6
  else
    let rune1 := one.getLastD ' '
    let rune2 := two.headD ' '
    let nonAlphaNumeric1 := isNonAlphaNumeric rune1
    let nonAlphaNumeric2 := isNonAlphaNumeric rune2
    let whitespace1 := nonAlphaNumeric1 ∧ isGoSpace rune1
    let whitespace2 := nonAlphaNumeric2 ∧ isGoSpace rune2
    let lineBreak1 := whitespace1 ∧ isLinebreakChar rune1
    let lineBreak2 := whitespace2 ∧ isLinebreakChar rune2
    let blankLine1 := lineBreak1 ∧ matchBlanklineEnd one
    let blankLine2 := lineBreak2 ∧ matchBlanklineEnd two
    if blankLine1 ∨ blankLine2 then 5
    else if lineBreak1 ∨ lineBreak2 then 4
    else if nonAlphaNumeric1 ∧ ¬whitespace1 ∧ whitespace2 then 3
    else if whitespace1 ∨ whitespace2 then 2
    else if nonAlphaNumeric1 ∨ nonAlphaNumeric2 then 1
    else 0

/-- Slide loop of DiffCleanupSemanticLossless (source lines 838-856): step
the edit right one code point at a time while its first code point equals
the first code point of the right equality, keeping the best-scoring split
(`score ≥ bestScore`, favouring later positions).  At code-point granularity
the inner `utf8.DecodeRuneInString` guard of lines 840-843 coincides with
the loop condition.  `equality2` shrinks every step, so its length bounds
the iterations; `fuel` covers that. -/
def slideLoop (fuel : Nat) (equality1 edit equality2 : GoStr) (bestScore : Nat)
    (best : GoStr × GoStr × GoStr) : GoStr × GoStr × GoStr :=
  match fuel with
  | 0 => best
  | fuel + 1 =>
    match edit, equality2 with
    | e :: erest, q :: qrest =>
      if e = q then
        let equality1 := equality1 ++ [e]
        let edit := erest ++ [q]
        let equality2 := qrest
        let score := DiffCleanupSemanticScore equality1 edit +
          DiffCleanupSemanticScore edit equality2
        if score ≥ bestScore then
          slideLoop fuel equality1 edit equality2 score (equality1, edit, equality2)
        else
          slideLoop fuel equality1 edit equality2 bestScore best
      else best
    | _, _ => best

/-- Loop of DiffCleanupSemanticLossless (source lines 815-876).  For each
single edit surrounded by equalities: first shift the edit as far left as
the (buggy) `DiffCommonSuffixString` of the left equality and the edit
allows, then slide right keeping the best boundary score, then write the
winner back, dropping equalities that became empty.  The byte-level slices
of lines 826-829 coincide with code-point slices on the ASCII inputs used
in the theorems. -/
def losslessLoop (fuel : Nat) (diffs : List Diff) (pointer : Nat) : List Diff :=
  match fuel with
  | 0 => diffs
  | fuel + 1 =>
    if pointer + 1 < diffs.length then
      if (diffs.getD (pointer - 1) dummyDiff).Op = EQUAL ∧
         (diffs.getD (pointer + 1) dummyDiff).Op = EQUAL then
        let equality1 := (diffs.getD (pointer - 1) dummyDiff).Text
        let edit := (diffs.getD pointer dummyDiff).Text
        let equality2 := (diffs.getD (pointer + 1) dummyDiff).Text
        let commonOffset := DiffCommonSuffix equality1 edit
        let shifted :=
          if commonOffset > 0 then
            let commonString := edit.drop (edit.length - commonOffset)
            (equality1.take (equality1.length - commonOffset),
             commonString ++ edit.take (edit.length - commonOffset),
             commonString ++ equality2)
          else (equality1, edit, equality2)
        let eq1 := shifted.1
        let ed := shifted.2.1
        let eq2 := shifted.2.2
        let bestScore := DiffCleanupSemanticScore eq1 ed +
          DiffCleanupSemanticScore ed eq2
        let best := slideLoop (eq2.length + 1) eq1 ed eq2 bestScore (eq1, ed, eq2)
        let bestEquality1 := best.1
        let bestEdit := best.2.1
        let bestEquality2 := best.2.2
        if (diffs.getD (pointer - 1) dummyDiff).Text ≠ bestEquality1 then
          -- lines 858-873: save the improvement back into the list
          let step1 :=
            if bestEquality1.length > 0 then
              (diffs.set (pointer - 1)
                ⟨(diffs.getD (pointer - 1) dummyDiff).Op, bestEquality1⟩, pointer)
            else (diffs.eraseIdx (pointer - 1), pointer - 1)
          let diffs1 := step1.1
          let pointer1 := step1.2
          let diffs2 := diffs1.set pointer1 ⟨(diffs1.getD pointer1 dummyDiff).Op, bestEdit⟩
          let step2 :=
            if bestEquality2.length > 0 then
              (diffs2.set (pointer1 + 1)
                ⟨(diffs2.getD (pointer1 + 1) dummyDiff).Op, bestEquality2⟩, pointer1)
            else (diffs2.eraseIdx (pointer1 + 1), pointer1 - 1)
          losslessLoop fuel step2.1 (step2.2 + 1)
        else losslessLoop fuel diffs (pointer + 1)
      else losslessLoop fuel diffs (pointer + 1)
    else diffs

/-- DiffCleanupSemanticLossless (source lines 809-878). -/
def DiffCleanupSemanticLossless (fuel : Nat) (diffs : List Diff) : List Diff :=
  losslessLoop fuel diffs 1

/-- Equality-elimination loop of DiffCleanupSemantic (source lines 698-747).
State: current list, pointer, stack of equality positions, `lastequality`,
the four length tallies (the Go code tallies bytes; code points coincide on
the ASCII inputs used below), and the `changes` flag.  The write
`diffs[pointer+1].Type = INSERT` at line 725 panics (`none`) when
`pointer+1` is out of range.  After the pointer is reset to `-1` or to the
top of the stack, the trailing `pointer++` makes it `0` resp. `top+1`,
which is how the recursion continues. -/
def semanticElimLoop (fuel : Nat) (diffs : List Diff) (pointer : Nat)
    (equalities : List Nat) (lastequality : GoStr)
    (li1 ld1 li2 ld2 : Nat) (changes : Bool) : Option (List Diff × Bool) :=
  match fuel with
  | 0 => none
  | fuel + 1 =>
    if pointer < diffs.length then
      let d := diffs.getD pointer dummyDiff
      if d.Op = EQUAL then
        semanticElimLoop fuel diffs (pointer + 1) (pointer :: equalities) d.Text
          li2 ld2 0 0 changes
      else
        let li2 := if d.Op = INSERT then li2 + d.Text.length else li2
        let ld2 := if d.Op = DELETE then ld2 + d.Text.length else ld2
        if lastequality.length > 0 ∧ lastequality.length ≤ max li1 ld1 ∧
           lastequality.length ≤ max li2 ld2 then
          match equalities with
          | [] => none
          | lastPointer :: poppedOnce =>
            if pointer + 1 < diffs.length then
              let diffs1 := (diffs.set lastPointer ⟨DELETE, lastequality⟩).set
                (pointer + 1) ⟨INSERT, (diffs.getD (pointer + 1) dummyDiff).Text⟩
              -- line 728-731: throw away the popped equality and the one before it
              let equalities1 :=
                match poppedOnce with
                | _ :: rest => rest
                | [] => []
              -- lines 732-736: pointer = -1, or the remaining top of the stack;
              -- combined with the trailing pointer++ of line 746
              let pointer1 :=
                match equalities1 with
                | top :: _ => top + 1
                | [] => 0
              semanticElimLoop fuel diffs1 pointer1 equalities1 [] 0 0 0 0 true
            else none
        else semanticElimLoop fuel diffs (pointer + 1) equalities lastequality
          li1 ld1 li2 ld2 changes
    else some (diffs, changes)

/-- Overlap pass of DiffCleanupSemantic (source lines 761-804).  When the
overlap condition holds, the Go code evaluates `postDiffs := diffs[pointer:0]`
(lines 774 and 790), a slice whose low bound exceeds its high bound: that is
a runtime panic (`none`) since `pointer ≥ 1` here.  The remainder of the
branch is written out anyway, mirroring the source. -/
def semanticOverlapLoop (fuel : Nat) (diffs : List Diff) (pointer : Nat) :
    Option (List Diff) :=
  match fuel with
  | 0 => none
  | fuel + 1 =>
    if pointer < diffs.length then
      if (diffs.getD (pointer - 1) dummyDiff).Op = DELETE ∧
         (diffs.getD pointer dummyDiff).Op = INSERT then
        let deletion := (diffs.getD (pointer - 1) dummyDiff).Text
        let insertion := (diffs.getD pointer dummyDiff).Text
        let overlap1 := DiffCommonOverlap deletion insertion
        let overlap2 := DiffCommonOverlap insertion deletion
        if overlap1 ≥ overlap2 then
          if overlap1 ≥ deletion.length / 2 ∨ overlap1 ≥ insertion.length / 2 then
            let preDiffs := diffs.take (pointer - 1)
            match goSliceBetween diffs pointer 0 with
            | none => none
            | some postDiffs =>
              let diffs1 := preDiffs ++ [(⟨EQUAL, insertion.take overlap1⟩ : Diff)] ++ postDiffs
              let diffs2 := diffs1.set (pointer - 1)
                ⟨(diffs1.getD (pointer - 1) dummyDiff).Op,
                 deletion.take (deletion.length - overlap1)⟩
              let diffs3 := diffs2.set (pointer + 1)
                ⟨(diffs2.getD (pointer + 1) dummyDiff).Op, insertion.drop overlap1⟩
              semanticOverlapLoop fuel diffs3 (pointer + 2)
          else semanticOverlapLoop fuel diffs (pointer + 2)
        else
          if overlap2 ≥ deletion.length / 2 ∨ overlap2 ≥ insertion.length / 2 then
            let preDiffs := diffs.take (pointer - 1)
            match goSliceBetween diffs pointer 0 with
            | none => none
            | some postDiffs =>
              let diffs1 := preDiffs ++ [(⟨EQUAL, deletion.take overlap2⟩ : Diff)] ++ postDiffs
              let diffs2 := diffs1.set (pointer - 1)
                ⟨INSERT, insertion.take (insertion.length - overlap2)⟩
              let diffs3 := diffs2.set (pointer + 1)
                ⟨DELETE, deletion.drop overlap2⟩
              semanticOverlapLoop fuel diffs3 (pointer + 2)
          else semanticOverlapLoop fuel diffs (pointer + 2)
      else semanticOverlapLoop fuel diffs (pointer + 1)
    else some diffs

/-- DiffCleanupSemantic (source lines 683-806).  After the elimination walk
the Go code again discards the error of `DiffCleanupMerge` (line 751,
`_, diffs = ...`), runs `DiffCleanupSemanticLossless`, and finally the
overlap pass. -/
def DiffCleanupSemantic (fuel : Nat) (diffs : List Diff) : Option (List Diff) :=
  if diffs.length = 0 then some []
  else
    match semanticElimLoop fuel diffs 0 [] [] 0 0 0 0 false with
    | none => none
    | some (diffs1, changes) =>
      let diffs2 := if changes then (DiffCleanupMerge fuel diffs1).2 else diffs1
      let diffs3 := DiffCleanupSemanticLossless fuel diffs2
      semanticOverlapLoop fuel diffs3 1

/-- Lookup in the Go map `lineHash`, modelled as an association list. -/
def hashLookup : List (GoStr × Nat) → GoStr → Option Nat
  | [], _ => none
  | (k, v) :: rest, line => if k = line then some v else hashLookup rest line

/-- The newline character. -/
def newlineChar : Char := Char.ofNat 10

/-- Loop of DiffLinesToCharsMunge (source lines 490-507).  Faithful to the
port's bug: `lineEnd = strings.Index(text[lineStart:], "\n")` yields an
index *relative to* `lineStart`, which the code then uses as an absolute
position in `text[lineStart:lineEnd+1]`; for inputs with more than one line
this slices the wrong range (possibly panicking, `none`) and the loop can
run forever (also `none`, by fuel exhaustion).  `lineEnd` is an `int` in Go
and starts at `-1`, hence the `Int` type. -/
def mungeLoop (fuel : Nat) (text : GoStr) (lineStart : Nat) (lineEnd : Int)
    (lineArray : List GoStr) (lineHash : List (GoStr × Nat)) (chars : List Char) :
    Option (List Char × List GoStr × List (GoStr × Nat)) :=
  match fuel with
  | 0 => none
  | fuel + 1 =>
    if lineEnd < (text.length : Int) - 1 then
      let lineEnd1 : Int :=
        match strIndex (text.drop lineStart) [newlineChar] with
        | some i => (i : Int)
        | none => (text.length : Int) - 1
      match goSliceBetween text lineStart (lineEnd1 + 1).toNat with
      | none => none
      | some line =>
        let lineStart1 := (lineEnd1 + 1).toNat
        match hashLookup lineHash line with
        | some lineValue =>
          mungeLoop fuel text lineStart1 lineEnd1 lineArray lineHash
            (chars ++ [Char.ofNat lineValue])
        | none =>
          let lineArray1 := lineArray ++ [line]
          let lineHash1 := lineHash ++ [(line, lineArray1.length - 1)]
          mungeLoop fuel text lineStart1 lineEnd1 lineArray1 lineHash1
            (chars ++ [Char.ofNat (lineArray1.length - 1)])
    else some (chars, lineArray, lineHash)

/-- DiffLinesToCharsMunge (source lines 482-509).  Returns the symbol string
together with the *local* line array and the (shared) hash map. -/
def DiffLinesToCharsMunge (fuel : Nat) (text : GoStr) (lineArray : List GoStr)
    (lineHash : List (GoStr × Nat)) :
    Option (List Char × List GoStr × List (GoStr × Nat)) :=
  mungeLoop fuel text 0 (-1) lineArray lineHash []

/-- DiffLinesToChars (source lines 359-372).  In Go, `lineArray` is a slice
of length 1 and capacity 1 passed *by value*; every `append` inside the
munge reallocates, so the caller's `lineArray` never changes and the
function returns the original one-element table `[""]`.  The hash map, by
contrast, is a reference and is shared between the two munge calls.  The
model mirrors this: the line arrays returned by the munges are dropped. -/
def DiffLinesToChars (fuel : Nat) (textA textB : GoStr) :
    Option (List Char × List Char × List GoStr) :=
  let lineArray : List GoStr := [[]]
  match DiffLinesToCharsMunge fuel textA lineArray [] with
  | none => none
  | some (chars1, _, lineHash1) =>
    match DiffLinesToCharsMunge fuel textB lineArray lineHash1 with
    | none => none
    | some (chars2, _, _) => some (chars1, chars2, lineArray)

/-- Text conversion of one segment in DiffCharsToLines (source lines
516-521): each symbol indexes `lineArray`; an out-of-range index is a Go
panic (`none`).  The Go loop walks the *bytes* of the text; on symbol
values below 128 (as in the theorems below) bytes and code points
coincide. -/
def charsToLinesText (lineArray : List GoStr) : List Char → Option GoStr
  | [] => some []
  | c :: rest =>
    match lineArray.get? c.toNat with
    | none => none
    | some line => (charsToLinesText lineArray rest).map (fun t => line ++ t)

/-- DiffCharsToLines (source lines 512-526). -/
def DiffCharsToLines (diffs : List Diff) (lineArray : List GoStr) :
    Option (List Diff) :=
  diffs.foldr
    (fun d acc =>
      match charsToLinesText lineArray d.Text, acc with
      | some t, some rest => some ((⟨d.Op, t⟩ : Diff) :: rest)
      | _, _ => none)
    (some [])

/-- Go `html.EscapeString`, per character: `&`, `'`, `<`, `>`, `"` become
`&amp;`, `&#39;`, `&lt;`, `&gt;`, `&#34;`; every other character is kept. -/
def escapeHtmlChar (c : Char) : GoStr :=
  if c = '&' then ("&amp;").toList
  else if c = squoteChar then ("&#39;").toList
  else if c = '<' then ("&lt;").toList
  else if c = '>' then ("&gt;").toList
  else if c = dquoteChar then ("&#34;").toList
  else [c]

/-- Go `html.EscapeString` over a whole string. -/
def htmlEscapeString (s : GoStr) : GoStr := s.flatMap escapeHtmlChar

/-- Go `strings.Replace(s, "\n", "&para;<br>", -1)`: since the pattern is a
single character, the replacement is a per-character expansion. -/
def replacePara (s : GoStr) : GoStr :=
  s.flatMap fun c => if c = newlineChar then ("&para;<br>").toList else [c]

/-- The escaped text of one segment in DiffPrettyHtml (source line 1178):
`strings.Replace(html.EscapeString(diff.Text), "\n", "&para;<br>", -1)`. -/
def prettyText (s : GoStr) : GoStr := replacePara (htmlEscapeString s)

/-- DiffPrettyHtml (source lines 1175-1195). -/
def DiffPrettyHtml (diffs : List Diff) : GoStr :=
  (diffs.map fun d =>
    match d.Op with
    | INSERT => ("<ins style=").toList ++ [dquoteChar] ++ ("background:#e6ffe6;").toList
        ++ [dquoteChar] ++ (">").toList ++ prettyText d.Text ++ ("</ins>").toList
    | DELETE => ("<del style=").toList ++ [dquoteChar] ++ ("background:#ffe6e6;").toList
        ++ [dquoteChar] ++ (">").toList ++ prettyText d.Text ++ ("</del>").toList
    | EQUAL => ("<span>").toList ++ prettyText d.Text ++ ("</span>").toList).flatten

/-!  Theorems settling the claims.  Fuel values are generous: each concrete
evaluation below reaches its fixed point well within the supplied fuel, and
raising the fuel does not change any of the results. -/

/-- Claim C1 (code bug): the round-trip invariant fails.  On inputs
`A = ""`, `B = "a"` the driver returns the single segment `[DELETE ""]`
(because `DiffCompute` tests `len(textA) > 0` where upstream tests
`== 0`), so the reconstruction of B from the segments with op ≠ DELETE is
`""`, not `"a"`.  (The source-side reconstruction happens to survive at
this input.) -/
theorem C1_roundtrip_fails :
    DiffMainDeadline 60 [] (("a").toList) =
      some (none, [(⟨DELETE, []⟩ : Diff)]) ∧
    DiffTextResult [(⟨DELETE, []⟩ : Diff)] = [] ∧
    DiffTextResult [(⟨DELETE, []⟩ : Diff)] ≠ ("a").toList ∧
    DiffTextSource [(⟨DELETE, []⟩ : Diff)] = [] := by
  refine ⟨rfl, rfl, ?_, rfl⟩
  decide

/-- Claim C2 (code bug): the empty shortcut is inverted.  `diff("", "a")`
returns `[DELETE ""]` instead of `[INSERT "a"]`, and `diff("a", "")`
returns `[INSERT ""]` instead of `[DELETE "a"]`: the two emptiness tests in
`DiffCompute` (source lines 112 and 118) use `> 0` where upstream uses
`== 0`, swapping and corrupting both branches. -/
theorem C2_empty_shortcut_fails :
    DiffMainDeadline 60 [] (("a").toList) =
      some (none, [(⟨DELETE, []⟩ : Diff)]) ∧
    DiffMainDeadline 60 [] (("a").toList) ≠
      some (none, [(⟨INSERT, ("a").toList⟩ : Diff)]) ∧
    DiffMainDeadline 60 (("a").toList) [] =
      some (none, [(⟨INSERT, []⟩ : Diff)]) ∧
    DiffMainDeadline 60 (("a").toList) [] ≠
      some (none, [(⟨DELETE, ("a").toList⟩ : Diff)]) := by
  refine ⟨rfl, ?_, rfl, ?_⟩ <;> decide

/-- Claim C3 (code bug): on `[(DELETE,"a"),(INSERT,"abc"),(DELETE,"dc")]`
cleanup_merge returns `[(EQUAL,"a"),(DELETE,"a"),(INSERT,"abc"),
(INSERT,""),(EQUAL,"bc")]` instead of the specified
`[(EQUAL,"a"),(DELETE,"d"),(INSERT,"b"),(EQUAL,"c")]`: the splice at source
line 1098 removes only `count_insert` records, leaving the stale DELETE and
INSERT records in place, and the off-by-one `DiffCommonSuffix` overdraws
the common suffix. -/
theorem C3_cleanup_merge_example_fails :
    DiffCleanupMerge 60
        [(⟨DELETE, ("a").toList⟩ : Diff), (⟨INSERT, ("abc").toList⟩ : Diff),
         (⟨DELETE, ("dc").toList⟩ : Diff)] =
      (none,
        [(⟨EQUAL, ("a").toList⟩ : Diff), (⟨DELETE, ("a").toList⟩ : Diff),
         (⟨INSERT, ("abc").toList⟩ : Diff), (⟨INSERT, []⟩ : Diff),
         (⟨EQUAL, ("bc").toList⟩ : Diff)]) ∧
    (DiffCleanupMerge 60
        [(⟨DELETE, ("a").toList⟩ : Diff), (⟨INSERT, ("abc").toList⟩ : Diff),
         (⟨DELETE, ("dc").toList⟩ : Diff)]).2 ≠
      [(⟨EQUAL, ("a").toList⟩ : Diff), (⟨DELETE, ("d").toList⟩ : Diff),
       (⟨INSERT, ("b").toList⟩ : Diff), (⟨EQUAL, ("c").toList⟩ : Diff)] := by
  refine ⟨rfl, ?_⟩
  decide

/-- Claim C4 (code bug): the overlap pass of cleanup_semantic crashes
instead of splicing.  On `[(DELETE,"abcxxx"),(INSERT,"xxxdef")]` the
overlap `common_overlap(delete, insert) = 3` satisfies the half-length
condition, and the branch then evaluates `postDiffs := diffs[pointer:0]`
(source line 774) with `pointer = 1`, a slice whose low bound exceeds its
high bound: a runtime panic (modelled `none`), not the specified
`[(DELETE,"abc"),(EQUAL,"xxx"),(INSERT,"def")]`. -/
theorem C4_semantic_overlap_panics :
    DiffCommonOverlap (("abcxxx").toList) (("xxxdef").toList) = 3 ∧
    DiffCleanupSemantic 90
        [(⟨DELETE, ("abcxxx").toList⟩ : Diff),
         (⟨INSERT, ("xxxdef").toList⟩ : Diff)] = none := by
  exact ⟨rfl, rfl⟩

/-- Claim C5 (code bug): `DiffCommonSuffix` is off by one.  Its loop runs
`for i := 1; i < n; i++` where upstream runs `i <= n`, so when every
compared position matches it returns `n = min(len A, len B)` without ever
comparing the `n`-th code point from the end: on `A = "a"`, `B = "b"` it
returns 1 although the last code points differ (the greatest valid n is 0),
and on `A = "ab"`, `B = "cb"` it returns 2 instead of 1.  The particular
example of the claim, `common_suffix("abcdef1234","xyz1234") = 4`, does
hold because the first mismatch there occurs before the loop bound. -/
theorem C5_common_suffix_off_by_one :
    DiffCommonSuffix (("a").toList) (("b").toList) = 1 ∧
    commonSuffixSpec (("a").toList) (("b").toList) = 0 ∧
    DiffCommonSuffix (("ab").toList) (("cb").toList) = 2 ∧
    commonSuffixSpec (("ab").toList) (("cb").toList) = 1 ∧
    DiffCommonSuffix (("abcdef1234").toList) (("xyz1234").toList) = 4 ∧
    commonSuffixSpec (("abcdef1234").toList) (("xyz1234").toList) = 4 := by
  exact ⟨rfl, rfl, rfl, rfl, rfl, rfl⟩

/-- Claim C9 (code bug): cleanup_merge is not idempotent.  One application
to `[(DELETE,"a"),(INSERT,"b")]` yields `[(DELETE,"a"),(INSERT,""),
(EQUAL,"b")]` (the buggy `DiffCommonSuffix` reports a common suffix of 1
between "b" and "a"), and a second application yields
`[(DELETE,"a"),(DELETE,"a"),(EQUAL,"b")]` (the splice at source line 1100
duplicates the stale DELETE record), which differs from the first
result. -/
theorem C9_cleanup_merge_not_idempotent :
    DiffCleanupMerge 60 [(⟨DELETE, ("a").toList⟩ : Diff), (⟨INSERT, ("b").toList⟩ : Diff)] =
      (none,
        [(⟨DELETE, ("a").toList⟩ : Diff), (⟨INSERT, []⟩ : Diff),
         (⟨EQUAL, ("b").toList⟩ : Diff)]) ∧
    DiffCleanupMerge 60
        [(⟨DELETE, ("a").toList⟩ : Diff), (⟨INSERT, []⟩ : Diff),
         (⟨EQUAL, ("b").toList⟩ : Diff)] =
      (none,
        [(⟨DELETE, ("a").toList⟩ : Diff), (⟨DELETE, ("a").toList⟩ : Diff),
         (⟨EQUAL, ("b").toList⟩ : Diff)]) ∧
    (DiffCleanupMerge 60
        (DiffCleanupMerge 60
          [(⟨DELETE, ("a").toList⟩ : Diff), (⟨INSERT, ("b").toList⟩ : Diff)]).2).2 ≠
      (DiffCleanupMerge 60
        [(⟨DELETE, ("a").toList⟩ : Diff), (⟨INSERT, ("b").toList⟩ : Diff)]).2 := by
  refine ⟨rfl, rfl, ?_⟩
  decide

/-- Concrete input on which pass 1 of the merge detects its invariant
violation directly: the factoring step consumes the whole accumulated
delete text, the buggy splice then leaves the four stale DELETE records in
place, the pointer lands back on the last of them, and the re-scanned
DELETE/INSERT pair factors a common prefix whose preceding record is a
stale DELETE, not an EQUAL (source lines 1076-1079). -/
def mergeErrInput : List Diff :=
  [(⟨DELETE, ("a").toList⟩ : Diff), (⟨DELETE, ("b").toList⟩ : Diff),
   (⟨DELETE, ("c").toList⟩ : Diff), (⟨DELETE, ("d").toList⟩ : Diff),
   (⟨INSERT, ("abcddf").toList⟩ : Diff), (⟨EQUAL, ("w").toList⟩ : Diff)]

/-- Concrete input on which the violation is detected inside the merge's
own recursive call: pass 1 leaves a stale run, pass 2 shifts an edit
(`changes = true`), and the re-merge of the shifted script hits the pass-1
error — which the call site `_, diffs = dmp.DiffCleanupMerge(diffs)`
(source line 1168) then discards. -/
def mergeSwallowInput : List Diff :=
  [(⟨EQUAL, ("z").toList⟩ : Diff), (⟨DELETE, ("a").toList⟩ : Diff),
   (⟨DELETE, ("b").toList⟩ : Diff), (⟨DELETE, ("c").toList⟩ : Diff),
   (⟨DELETE, ("d").toList⟩ : Diff), (⟨INSERT, ("abcdabcddf").toList⟩ : Diff),
   (⟨EQUAL, ("w").toList⟩ : Diff), (⟨INSERT, ("qw").toList⟩ : Diff),
   (⟨EQUAL, ("q").toList⟩ : Diff)]

/-- The script handed to the recursive merge call while evaluating
`DiffCleanupMerge` on `mergeSwallowInput`: the output of pass 1 and
pass 2. -/
def mergeSwallowRediff : List Diff :=
  [(⟨EQUAL, ("zabcd").toList⟩ : Diff), (⟨DELETE, ("a").toList⟩ : Diff),
   (⟨DELETE, ("b").toList⟩ : Diff), (⟨DELETE, ("c").toList⟩ : Diff),
   (⟨DELETE, ("d").toList⟩ : Diff), (⟨INSERT, ("abcdd").toList⟩ : Diff),
   (⟨EQUAL, ("fwq").toList⟩ : Diff), (⟨INSERT, ("wq").toList⟩ : Diff)]

/-- Claim C6 counterexample: a detected invariant violation does NOT reach
the caller.  On `mergeSwallowInput`, pass 1 succeeds, pass 2 shifts an edit
and produces `mergeSwallowRediff` with `changes = true`, and the recursive
merge of `mergeSwallowRediff` returns the invariant-violation error — yet
`DiffCleanupMerge` returns `(nil, nil)`: the error is discarded at the
recursive call site (source line 1168, `_, diffs = ...`), so the caller
receives a nil error and a nil script instead of the error. -/
theorem C6_counterexample_error_swallowed :
    mergeLoop 60 (mergeSwallowInput ++ [(⟨EQUAL, []⟩ : Diff)]) 0 0 0 [] [] =
      (none, mergeSwallowRediff.take 6 ++
        [(⟨EQUAL, ("fw").toList⟩ : Diff), (⟨INSERT, ("qw").toList⟩ : Diff),
         (⟨EQUAL, ("q").toList⟩ : Diff)]) ∧
    mergePass2 60
        (mergeSwallowRediff.take 6 ++
          [(⟨EQUAL, ("fw").toList⟩ : Diff), (⟨INSERT, ("qw").toList⟩ : Diff),
           (⟨EQUAL, ("q").toList⟩ : Diff)]) 1 false =
      (true, mergeSwallowRediff) ∧
    DiffCleanupMerge 59 mergeSwallowRediff =
      (some "Previous diff should have been an equality.", []) ∧
    DiffCleanupMerge 60 mergeSwallowInput = (none, []) := by
  exact ⟨rfl, rfl, rfl, rfl⟩

/-- Error component of a (possibly panicking) driver result. -/
def goErrPart (r : Option (Option GoErr × List Diff)) : Option GoErr :=
  match r with
  | none => none
  | some p => p.1

/-- Claim C6 amended: DiffCleanupMerge does report the invariant violation
of its pass 1 to its direct caller (with a nil script), but no caller looks
at it — every call site discards the error into `_` (source lines 103, 751,
1039 and 1168) — and the outermost entry points DiffMain / DiffMainDeadline
return a literal nil error on every path, so the caller of the diff entry
points never receives any error. -/
theorem C6_amended_error_discarded :
    DiffCleanupMerge 60 mergeErrInput =
      (some "Previous diff should have been an equality.", []) ∧
    ∀ (fuel : Nat) (inputA inputB : GoStr),
      goErrPart (DiffMainDeadline fuel inputA inputB) = none := by
  refine ⟨rfl, ?_⟩
  intro fuel inputA inputB
  unfold DiffMainDeadline goErrPart
  split
  · rfl
  · rename_i p heq
    split at heq
    · cases heq
      rfl
    · dsimp only at heq
      split at heq
      · cases heq
        rfl
      · exact Option.noConfusion heq

/-- Claim C7 (code bug): cleanup_semantic_lossless does not produce the
specified sliding.  On `[(EQUAL,"The c"),(INSERT,"ow and the c"),
(EQUAL,"at.")]` the off-by-one `DiffCommonSuffix` reports a common suffix
of 5 between "The c" and "ow and the c" (the 5th-from-last code points
'T' and 't' are never compared), the left equality is consumed entirely,
and the function returns `[(INSERT,"the cow and "),(EQUAL,"the cat.")]`
instead of `[(EQUAL,"The "),(INSERT,"cow and the "),(EQUAL,"cat.")]` —
the same wrong output the repository's own test file records in its
"TODO: fix" comment. -/
theorem C7_lossless_example_fails :
    DiffCleanupSemanticLossless 60
        [(⟨EQUAL, ("The c").toList⟩ : Diff),
         (⟨INSERT, ("ow and the c").toList⟩ : Diff),
         (⟨EQUAL, ("at.").toList⟩ : Diff)] =
      [(⟨INSERT, ("the cow and ").toList⟩ : Diff),
       (⟨EQUAL, ("the cat.").toList⟩ : Diff)] ∧
    DiffCleanupSemanticLossless 60
        [(⟨EQUAL, ("The c").toList⟩ : Diff),
         (⟨INSERT, ("ow and the c").toList⟩ : Diff),
         (⟨EQUAL, ("at.").toList⟩ : Diff)] ≠
      [(⟨EQUAL, ("The ").toList⟩ : Diff),
       (⟨INSERT, ("cow and the ").toList⟩ : Diff),
       (⟨EQUAL, ("cat.").toList⟩ : Diff)] := by
  refine ⟨rfl, ?_⟩
  decide

/-- Claim C8 (code bug): the line encoding is not invertible as built.  In
Go, `DiffLinesToChars` passes its one-element `lineArray` slice to the
munge *by value*; every `append` inside the munge reallocates, so the
returned table is always the original `[""]`.  Encoding `A = B = "a\n"`
yields the symbol strings `"\x01"` but the table `[""]`, and decoding
`[(EQUAL, "\x01")]` with that table indexes `lineArray[1]` out of range — a
runtime panic (`none`), not the specified `[(EQUAL, "a\n")]`. -/
theorem C8_line_encoding_not_invertible :
    DiffLinesToChars 60 (("a\n").toList) (("a\n").toList) =
      some ([Char.ofNat 1], [Char.ofNat 1], [[]]) ∧
    DiffCharsToLines [(⟨EQUAL, [Char.ofNat 1]⟩ : Diff)] [[]] = none := by
  exact ⟨rfl, rfl⟩

/-- Helper: `List.contains` distributes over append. -/
theorem containsAppend (l1 l2 : GoStr) (x : Char) :
    (l1 ++ l2).contains x = (l1.contains x || l2.contains x) := by
  induction l1 with
  | nil => simp
  | cons c t ih => simp [List.contains_cons, ih, Bool.or_assoc]

/-- Helper: one step of `prettyText`. -/
theorem prettyTextCons (c : Char) (s : GoStr) :
    prettyText (c :: s) = replacePara (escapeHtmlChar c) ++ prettyText s := by
  unfold prettyText htmlEscapeString
  rw [List.flatMap_cons]
  unfold replacePara
  rw [List.flatMap_append]

/-- Helper: a single escaped character never contributes a raw quote: the
five escape sequences are quote-free, and an unescaped character is by
construction neither `"` nor `'`. -/
theorem escParaQuoteFree (c : Char) :
    ((replacePara (escapeHtmlChar c)).contains dquoteChar = false) ∧
    ((replacePara (escapeHtmlChar c)).contains squoteChar = false) := by
  by_cases h1 : c = '&'
  · subst h1; exact ⟨rfl, rfl⟩
  by_cases h2 : c = squoteChar
  · subst h2; exact ⟨rfl, rfl⟩
  by_cases h3 : c = '<'
  · subst h3; exact ⟨rfl, rfl⟩
  by_cases h4 : c = '>'
  · subst h4; exact ⟨rfl, rfl⟩
  by_cases h5 : c = dquoteChar
  · subst h5; exact ⟨rfl, rfl⟩
  · have he : escapeHtmlChar c = [c] := by
      unfold escapeHtmlChar
      simp [h1, h2, h3, h4, h5]
    rw [he]
    by_cases h6 : c = newlineChar
    · subst h6; exact ⟨rfl, rfl⟩
    · have hr : replacePara [c] = [c] := by
        unfold replacePara
        simp [h6]
      rw [hr]
      constructor
      · simp [List.contains_cons]
        exact fun habs => h5 habs.symm
      · simp [List.contains_cons]
        exact fun habs => h2 habs.symm

/-- Helper: the escaped-and-newline-substituted text of a segment never
contains a raw quote character. -/
theorem prettyTextQuoteFree (s : GoStr) :
    ((prettyText s).contains dquoteChar = false) ∧
    ((prettyText s).contains squoteChar = false) := by
  induction s with
  | nil => exact ⟨rfl, rfl⟩
  | cons c t ih =>
    rw [prettyTextCons, containsAppend, containsAppend]
    rw [(escParaQuoteFree c).1, (escParaQuoteFree c).2, ih.1, ih.2]
    exact ⟨rfl, rfl⟩

/-- Claim C10 (confirmed): the HTML renderer escapes double and single
quotes occurring in segment text, emitting `&#34;` and `&#39;`, and no raw
quote character from any segment's text survives into the rendered text:
for every segment, the escaped text `prettyText` (exactly the expression
the renderer wraps into its tags) contains neither `"` nor `'`, a leading
`"` in the text renders as `&#34;`, a leading `'` renders as `&#39;`, and
the renderer emits precisely the tag-wrapped escaped text. -/
theorem C10_renderer_escapes_quotes (d : Diff) :
    (prettyText d.Text).contains dquoteChar = false ∧
    (prettyText d.Text).contains squoteChar = false ∧
    prettyText (dquoteChar :: d.Text) = ("&#34;").toList ++ prettyText d.Text ∧
    prettyText (squoteChar :: d.Text) = ("&#39;").toList ++ prettyText d.Text ∧
    DiffPrettyHtml [(⟨EQUAL, d.Text⟩ : Diff)] =
      ("<span>").toList ++ prettyText d.Text ++ ("</span>").toList := by
  refine ⟨(prettyTextQuoteFree d.Text).1, (prettyTextQuoteFree d.Text).2, ?_, ?_, ?_⟩
  · rw [prettyTextCons]
    rfl
  · rw [prettyTextCons]
    rfl
  · simp [DiffPrettyHtml]
